import Mathlib

/-!
Shallow embedding of firmware/examples/Leguiza_Perez/main/Leguiza_Perez.c,
the EMG fatigue-detection firmware.

Modelling conventions:
- C float (f32) values are modelled as rationals; machine floats carry no
  claim-relevant rounding here (all comparisons in the claims are exact).
- C arrays passed as pointer plus length are modelled as functions from
  index to value together with an explicit length argument, or as lists
  where a window snapshot is produced.
- The external FFT and IIR kernels are out of scope by the specification
  and appear as parameters of the analysis cycle.
- EMGTask in the source has exactly one missing closing brace; parsing the
  token stream literally, the second baseline and fatigue block, source
  lines 293 to 335, sits inside the branch `else if (f_ref > 0.0f)` of
  line 269, which is only reached when window_counter exceeds
  BASELINE_WINDOWS. The embedding follows that literal brace structure.
-/

/-- Macro BUFFER_SIZE of the source: FFT window length. -/
def BUFFER_SIZE : ℕ := 512

/-- Macro EMG_BUFFER_LEN of the source: circular buffer capacity. -/
def EMG_BUFFER_LEN : ℕ := 512

/-- Macro SAMPLE_FREQ of the source, in Hz. -/
def SAMPLE_FREQ : ℕ := 512

/-- Macro FATIGUE_THRESHOLD of the source: relative median-frequency drop
that counts as a fatigue indication (0.15f). -/
def FATIGUE_THRESHOLD : ℚ := 15 / 100

/-- Macro BASELINE_WINDOWS of the source: number of windows averaged into
the reference frequency. -/
def BASELINE_WINDOWS : ℕ := 5

/-- Macro CONSECUTIVE_WINDOWS of the source: drop windows needed for a
fatigue verdict. -/
def CONSECUTIVE_WINDOWS : ℕ := 3

/-- Accumulation loop `for i in 0..len-1: acc += f i`, the summation
pattern used by CalcRMS, CalcMeanFreq and CalcMedianFreq in the source. -/
def sumTo (f : ℕ → ℚ) : ℕ → ℚ
  | 0 => 0
  | n + 1 => sumTo f n + f n

/-- CalcMeanFreq of the source: weighted spectral mean frequency.
The single C loop accumulates `num += freqs[i]*fft_mag[i]` and
`den += fft_mag[i]` for `i < len`, then returns `num / den` when
`den > 0` and `0.0` otherwise. -/
def CalcMeanFreq (fft_mag freqs : ℕ → ℚ) (len : ℕ) : ℚ :=
  let num := sumTo (fun i => freqs i * fft_mag i) len
  let den := sumTo fft_mag len
  if 0 < den then num / den else 0

/-- The cumulative search loop of CalcMedianFreq. The C for loop over
`i = 0 .. len-1` is rendered with a fuel argument counting the remaining
iterations; the loop body adds `fft_mag i` to the accumulator and returns
`freqs i` as soon as the accumulator reaches `half`; exhausting the loop
falls through to `freqs (len - 1)`. -/
def medianGo (fft_mag freqs : ℕ → ℚ) (len : ℕ) (half : ℚ) : ℕ → ℕ → ℚ → ℚ
  | 0, _, _ => freqs (len - 1)
  | fuel + 1, i, accum =>
      let accum2 := accum + fft_mag i
      if half ≤ accum2 then freqs i else medianGo fft_mag freqs len half fuel (i + 1) accum2

/-- CalcMedianFreq of the source: frequency bin at which the cumulative
magnitude first reaches half of the total magnitude. -/
def CalcMedianFreq (fft_mag freqs : ℕ → ℚ) (len : ℕ) : ℚ :=
  let total := sumTo fft_mag len
  let half := total / 2
  medianGo fft_mag freqs len half len 0 0

/-- The circular EMG sample buffer of the source: backing array
emg_buffer, write cursor write_index and saturating valid-sample counter
sample_count. The array is modelled as a total function on indices; only
indices below the capacity are ever read or written. -/
structure CircBuf where
  emg_buffer : ℕ → ℚ
  write_index : ℕ
  sample_count : ℕ

/-- The zero-initialised static state of the buffer at boot. -/
def initBuf : CircBuf :=
  { emg_buffer := fun _ => 0, write_index := 0, sample_count := 0 }

/-- CircularBufferWrite of the source, with the capacity macro
EMG_BUFFER_LEN as parameter cap: store at the cursor, advance the cursor
modulo cap, increment sample_count while below cap. -/
def CircularBufferWrite (cap : ℕ) (s : CircBuf) (sample : ℚ) : CircBuf :=
  { emg_buffer := Function.update s.emg_buffer s.write_index sample
    write_index := (s.write_index + 1) % cap
    sample_count := if s.sample_count < cap then s.sample_count + 1 else s.sample_count }

/-- CircularBufferReadWindow of the source, with the window macro
BUFFER_SIZE as parameter N and the capacity macro EMG_BUFFER_LEN as cap.
When fewer than N valid samples exist the function returns without
copying, modelled as none; otherwise the window holds the samples at
start, start+1, ..., start+N-1 modulo cap where
start = (write_index - N + cap) mod cap. The C expression is evaluated in
int arithmetic, so with write_index < cap and N ≤ cap it equals the Nat
expression used here. -/
def CircularBufferReadWindow (N cap : ℕ) (s : CircBuf) : Option (List ℚ) :=
  if s.sample_count < N then none
  else
    some (List.ofFn fun i : Fin N => s.emg_buffer (((s.write_index + cap - N) % cap + i) % cap))

/-- The sequence of CircularBufferWrite calls performed by successive
timer interrupts, oldest sample first. -/
def writeMany (cap : ℕ) (s : CircBuf) (ws : List ℚ) : CircBuf :=
  ws.foldl (CircularBufferWrite cap) s

/-- The persistent fatigue-analysis state of the source: static module
variables f_ref, window_counter, fatigue_consecutive, fatigue_detected,
plus the function statics f_ref_established and f_ref_accum of EMGTask. -/
structure FatigueState where
  f_ref : ℚ
  window_counter : ℕ
  fatigue_consecutive : ℕ
  fatigue_detected : Bool
  f_ref_established : Bool
  f_ref_accum : ℚ

/-- Initial values of the fatigue statics at boot. -/
def initFatigue : FatigueState :=
  { f_ref := 0, window_counter := 0, fatigue_consecutive := 0,
    fatigue_detected := false, f_ref_established := false, f_ref_accum := 0 }

/-- The fatigue-analysis section of one EMGTask iteration, source lines
231 and 259 to 335, as a function of the median frequency m of the
current window. Following the literal brace structure of the source, the
block of lines 293 to 335 is nested inside the branch
`else if (f_ref > 0.0f)` of line 269; the BLE sends have no state effect
and are omitted here. -/
def classifierStep (s : FatigueState) (m : ℚ) : FatigueState :=
  let wc := s.window_counter + 1
  if wc ≤ BASELINE_WINDOWS then
    { s with window_counter := wc
             f_ref := if wc = BASELINE_WINDOWS then (s.f_ref + m) / (BASELINE_WINDOWS : ℚ)
                      else s.f_ref + m }
  else if 0 < s.f_ref then
    let drop := (s.f_ref - m) / s.f_ref
    let fc := if FATIGUE_THRESHOLD < drop then s.fatigue_consecutive + 1
              else s.fatigue_consecutive
    let fd := if FATIGUE_THRESHOLD < drop ∧ CONSECUTIVE_WINDOWS ≤ fc ∧
                 s.fatigue_detected = false then true
              else s.fatigue_detected
    if s.f_ref_established = false then
      let acc := if wc ≤ BASELINE_WINDOWS then s.f_ref_accum + m else s.f_ref_accum
      if wc = BASELINE_WINDOWS then
        { s with window_counter := wc, f_ref_accum := acc
                 f_ref := acc / (BASELINE_WINDOWS : ℚ), f_ref_established := true
                 fatigue_consecutive := fc, fatigue_detected := fd }
      else
        { s with window_counter := wc, f_ref_accum := acc
                 fatigue_consecutive := fc, fatigue_detected := fd }
    else
      if 0 < s.f_ref then
        if FATIGUE_THRESHOLD < drop then
          { s with window_counter := wc, fatigue_consecutive := fc + 1
                   fatigue_detected :=
                     if CONSECUTIVE_WINDOWS ≤ fc + 1 ∧ fd = false then true else fd }
        else
          { s with window_counter := wc, fatigue_consecutive := 0, fatigue_detected := fd }
      else
        { s with window_counter := wc, fatigue_consecutive := fc, fatigue_detected := fd }
  else
    { s with window_counter := wc }

/-- A session of completed analysis windows: the classifier applied to a
chronological list of per-window median frequencies. -/
def runClassifier (s : FatigueState) (ms : List ℚ) : FatigueState :=
  ms.foldl classifierStep s

/-- The external numeric kernels consumed by EMGTask, out of scope by the
specification: HiPassFilter, LowPassFilter, FFTMagnitude and
FFTFrequency. Each is an arbitrary map of the right shape; theorems about
the cycle quantify over them, which also covers the internal filter state
the IIR kernels carry across calls. -/
structure Kernels where
  hiPass : (ℕ → ℚ) → (ℕ → ℚ)
  loPass : (ℕ → ℚ) → (ℕ → ℚ)
  fftMag : (ℕ → ℚ) → (ℕ → ℚ)
  fftFreq : ℕ → ℕ → (ℕ → ℚ)

/-- The mutable module state of the firmware that the analysis cycle and
the BLE callback can observe: the circular buffer statics, the
emg_window scratch array, the feature statics f_mean and f_median, and
the fatigue classifier state. -/
structure SysState where
  circ : CircBuf
  emg_window : ℕ → ℚ
  f_mean : ℚ
  f_median : ℚ
  fatigue : FatigueState

/-- Zero-initialised firmware state at boot. -/
def initSys : SysState :=
  { circ := initBuf, emg_window := fun _ => 0, f_mean := 0, f_median := 0,
    fatigue := initFatigue }

/-- One iteration of the EMGTask loop body after a notification, source
lines 216 to 335. CircularBufferReadWindow leaves emg_window untouched
when fewer than BUFFER_SIZE samples are valid; the task body then
proceeds unconditionally: filters, FFT, feature extraction and the
classifier all run on whatever emg_window holds. RMS feeds only the BLE
report and is not part of the retained state. -/
def emgCycle (K : Kernels) (s : SysState) : SysState :=
  let window := match CircularBufferReadWindow BUFFER_SIZE EMG_BUFFER_LEN s.circ with
                | some w => fun i => w.getD i 0
                | none => s.emg_window
  let filt := K.loPass (K.hiPass window)
  let filtFft := K.fftMag filt
  let freqAxis := K.fftFreq SAMPLE_FREQ BUFFER_SIZE
  let m := CalcMedianFreq filtFft freqAxis (BUFFER_SIZE / 2)
  { s with emg_window := window
           f_mean := CalcMeanFreq filtFft freqAxis (BUFFER_SIZE / 2)
           f_median := m
           fatigue := classifierStep s.fatigue m }

/-- The BLE receive callback read_data of the source, as a function of
the first received byte data[0]. The byte 82 is the character R, which
only notifies EMGTask, and the byte 66 is the character B, which only
sends the two presentation strings shown; the returned Bool records
whether the task was notified. -/
def read_data (b : ℕ) (s : SysState) : SysState × Bool × List String :=
  if b = 82 then (s, true, [])
  else if b = 66 then (s, false, ["*HC*", "*TLimpieza completada*\n"])
  else (s, false, [])

/-- A concrete kernel instantiation (identity filters, zero spectrum)
used to exhibit concrete runs of the analysis cycle. -/
def constKernels : Kernels :=
  { hiPass := id, loPass := id, fftMag := id, fftFreq := fun _ _ => fun _ => 0 }

/-- Sum of an everywhere-zero prefix is zero. -/
lemma sumTo_eq_zero (f : ℕ → ℚ) (n : ℕ) (h : ∀ i, i < n → f i = 0) : sumTo f n = 0 := by
  induction n with
  | zero => rfl
  | succ k ih =>
      have h0 : sumTo f k = 0 := ih fun i hi => h i (Nat.lt_succ_of_lt hi)
      simp [sumTo, h0, h k (Nat.lt_succ_self k)]

/-- Scalars distribute out of the accumulation loop. -/
lemma sumTo_mul (k : ℚ) (f : ℕ → ℚ) (n : ℕ) :
    sumTo (fun i => k * f i) n = k * sumTo f n := by
  induction n with
  | zero => simp [sumTo]
  | succ m ih => simp [sumTo, ih]; ring

/-- Every branch of the classifier stores the incremented window counter. -/
lemma classifierStep_window_counter (s : FatigueState) (m : ℚ) :
    (classifierStep s m).window_counter = s.window_counter + 1 := by
  simp only [classifierStep]
  split_ifs <;> rfl

/-- No branch of the classifier assigns false to fatigue_detected. -/
lemma classifierStep_detected_mono (s : FatigueState) (m : ℚ)
    (h : s.fatigue_detected = true) :
    (classifierStep s m).fatigue_detected = true := by
  simp only [classifierStep]
  split_ifs <;> simp_all

/-- The only assignment to f_ref_established sits in a branch requiring
both window_counter + 1 > BASELINE_WINDOWS and
window_counter + 1 = BASELINE_WINDOWS, so the flag never changes. -/
lemma classifierStep_established (s : FatigueState) (m : ℚ) :
    (classifierStep s m).f_ref_established = s.f_ref_established := by
  simp only [classifierStep]
  split_ifs <;> first | rfl | omega

/-- C6: fatigue_detected is monotone over the session: once true, no
sequence of classifier transitions ever sets it back to false. -/
theorem fatigue_detected_monotone (s : FatigueState) (ms : List ℚ)
    (h : s.fatigue_detected = true) :
    (runClassifier s ms).fatigue_detected = true := by
  induction ms generalizing s with
  | nil => exact h
  | cons m rest ih =>
      simp only [runClassifier, List.foldl]
      exact ih (classifierStep s m) (classifierStep_detected_mono s m h)

/-- Witness for C6 at a concrete detected state and window sequence. -/
theorem fatigue_detected_monotone_witness :
    (runClassifier
      { f_ref := 100, window_counter := 6, fatigue_consecutive := 3,
        fatigue_detected := true, f_ref_established := false, f_ref_accum := 0 }
      [100, 80]).fatigue_detected = true :=
  fatigue_detected_monotone _ _ rfl

/-- C10: CalcMeanFreq returns the weighted quotient exactly when the
magnitude sum is strictly positive and 0 otherwise, so the division is
never taken with a non-positive denominator. -/
theorem CalcMeanFreq_total_cases (fft_mag freqs : ℕ → ℚ) (len : ℕ) :
    (0 < sumTo fft_mag len →
      CalcMeanFreq fft_mag freqs len =
        sumTo (fun i => freqs i * fft_mag i) len / sumTo fft_mag len) ∧
    (sumTo fft_mag len ≤ 0 → CalcMeanFreq fft_mag freqs len = 0) := by
  constructor
  · intro h
    simp only [CalcMeanFreq]
    rw [if_pos h]
  · intro h
    simp only [CalcMeanFreq]
    rw [if_neg (not_lt.mpr h)]

/-- Witness for C10 on a concrete strictly positive spectrum. -/
theorem CalcMeanFreq_total_cases_witness :
    CalcMeanFreq (fun _ => 1) (fun i => (i : ℚ)) 2 =
      sumTo (fun i => (i : ℚ) * 1) 2 / sumTo (fun _ => (1 : ℚ)) 2 :=
  (CalcMeanFreq_total_cases (fun _ => 1) (fun i => (i : ℚ)) 2).1 (by norm_num [sumTo])

/-- C3 counterexample: on an all-zero magnitude vector of length 3 with
frequency bins 10, 20, 30, CalcMedianFreq returns the first bin 10, not
the last bin 30 claimed by the specification: the cumulative sum 0
already reaches half of the total 0 at index 0. -/
theorem CalcMedianFreq_zero_not_last :
    CalcMedianFreq (fun _ => 0) (fun i => 10 * ((i : ℚ) + 1)) 3 = 10 ∧
    10 * (((3 : ℕ) - 1 : ℕ) + 1 : ℚ) = 30 ∧ (10 : ℚ) ≠ 30 := by
  refine ⟨?_, by norm_num, by norm_num⟩
  norm_num [CalcMedianFreq, medianGo, sumTo]

/-- C3 amended: on an all-zero magnitude vector of positive length,
CalcMedianFreq returns the first element of the frequency vector. -/
theorem CalcMedianFreq_zero_spectrum (fft_mag freqs : ℕ → ℚ) (len : ℕ)
    (hlen : 0 < len) (hz : ∀ i, i < len → fft_mag i = 0) :
    CalcMedianFreq fft_mag freqs len = freqs 0 := by
  obtain ⟨n, rfl⟩ : ∃ n, len = n + 1 := ⟨len - 1, by omega⟩
  have hsum : sumTo fft_mag (n + 1) = 0 := sumTo_eq_zero _ _ hz
  simp only [CalcMedianFreq, hsum, medianGo]
  rw [hz 0 (by omega)]
  norm_num

/-- Witness for the amended C3 on a concrete zero spectrum. -/
theorem CalcMedianFreq_zero_spectrum_witness :
    CalcMedianFreq (fun _ => 0) (fun _ => (7 : ℚ)) 4 = 7 :=
  CalcMedianFreq_zero_spectrum (fun _ => 0) (fun _ => (7 : ℚ)) 4 (by norm_num)
    (fun i _ => rfl)

/-- The cumulative-search loop is invariant under scaling the magnitudes,
the threshold and the accumulator by the same positive factor. -/
lemma medianGo_scale (k : ℚ) (hk : 0 < k) (fft_mag freqs : ℕ → ℚ) (len : ℕ)
    (half : ℚ) :
    ∀ (fuel i : ℕ) (accum : ℚ),
      medianGo (fun j => k * fft_mag j) freqs len (k * half) fuel i (k * accum) =
        medianGo fft_mag freqs len half fuel i accum := by
  intro fuel
  induction fuel with
  | zero => intro i accum; rfl
  | succ n ih =>
      intro i accum
      simp only [medianGo]
      have hmul : k * accum + k * fft_mag i = k * (accum + fft_mag i) := by ring
      rw [hmul]
      simp only [mul_le_mul_left hk]
      split_ifs with h
      · rfl
      · exact ih (i + 1) (accum + fft_mag i)

/-- C8: scaling the magnitude vector by a positive scalar changes neither
the mean frequency nor the median frequency. -/
theorem spectral_scale_invariance (k : ℚ) (hk : 0 < k) (fft_mag freqs : ℕ → ℚ)
    (len : ℕ) :
    CalcMeanFreq (fun i => k * fft_mag i) freqs len = CalcMeanFreq fft_mag freqs len ∧
    CalcMedianFreq (fun i => k * fft_mag i) freqs len = CalcMedianFreq fft_mag freqs len := by
  constructor
  · simp only [CalcMeanFreq]
    have h1 : sumTo (fun i => freqs i * (k * fft_mag i)) len =
        k * sumTo (fun i => freqs i * fft_mag i) len := by
      rw [← sumTo_mul]
      congr 1
      funext i
      ring
    rw [h1, sumTo_mul]
    by_cases hden : 0 < sumTo fft_mag len
    · rw [if_pos hden, if_pos (mul_pos hk hden),
        mul_div_mul_left _ _ (ne_of_gt hk)]
    · rw [if_neg hden, if_neg]
      intro hcon
      rcases mul_pos_iff.mp hcon with ⟨_, h2⟩ | ⟨h1, _⟩
      · exact hden h2
      · exact absurd hk (not_lt.mpr h1.le)
  · simp only [CalcMedianFreq, sumTo_mul, mul_div_assoc]
    have h := medianGo_scale k hk fft_mag freqs len (sumTo fft_mag len / 2) len 0 0
    rw [mul_zero] at h
    exact h

/-- Witness for C8 with scalar 2 on a concrete spectrum. -/
theorem spectral_scale_invariance_witness :
    CalcMeanFreq (fun i => 2 * ((i : ℚ) + 1)) (fun i => (i : ℚ)) 2 =
      CalcMeanFreq (fun i => (i : ℚ) + 1) (fun i => (i : ℚ)) 2 ∧
    CalcMedianFreq (fun i => 2 * ((i : ℚ) + 1)) (fun i => (i : ℚ)) 2 =
      CalcMedianFreq (fun i => (i : ℚ) + 1) (fun i => (i : ℚ)) 2 :=
  spectral_scale_invariance 2 (by norm_num) (fun i => (i : ℚ) + 1) (fun i => (i : ℚ)) 2

/-- C4 divergence, evaluated on the failing input of five baseline
windows with median frequency 100. The reference f_ref reaches the
baseline mean 100 at the fifth window (and holds intermediate partial
sums such as 200 before that), but f_ref_established never becomes true:
the only assignment to it, source line 302, is unreachable, as the first
conjunct states for every state and window. -/
theorem baseline_flag_never_established :
    (∀ (s : FatigueState) (m : ℚ),
      (classifierStep s m).f_ref_established = s.f_ref_established) ∧
    (runClassifier initFatigue [100, 100]).f_ref = 200 ∧
    (runClassifier initFatigue [100, 100, 100, 100, 100]).f_ref = 100 ∧
    (runClassifier initFatigue [100, 100, 100, 100, 100]).f_ref_established = false := by
  refine ⟨classifierStep_established, ?_, ?_, ?_⟩ <;>
    norm_num [runClassifier, List.foldl, classifierStep, initFatigue,
      BASELINE_WINDOWS, FATIGUE_THRESHOLD, CONSECUTIVE_WINDOWS]

/-- C2 divergence, evaluated on the failing input: after the baseline
100, 100, 100, 100, 100 (reference 100) and two drop windows with median
80, the recovery window with median 100 (drop 0, below the threshold)
leaves fatigue_consecutive at 2 instead of resetting it to 0, because the
reset at source line 331 is unreachable; fatigue_detected is indeed left
unchanged. -/
theorem recovery_window_does_not_reset_counter :
    (runClassifier initFatigue [100, 100, 100, 100, 100, 80, 80]).fatigue_consecutive = 2 ∧
    (runClassifier initFatigue
      [100, 100, 100, 100, 100, 80, 80, 100]).fatigue_consecutive = 2 ∧
    (runClassifier initFatigue
      [100, 100, 100, 100, 100, 80, 80, 100]).fatigue_detected = false := by
  refine ⟨?_, ?_, ?_⟩ <;>
    norm_num [runClassifier, List.foldl, classifierStep, initFatigue,
      BASELINE_WINDOWS, FATIGUE_THRESHOLD, CONSECUTIVE_WINDOWS]

/-- C5 divergence, evaluated on the failing input: with reference 100,
after drop windows 80, 80, a recovery window 100, the next run of windows
with drop above the threshold starts at the ninth window, and
fatigue_detected becomes true already at that first window of the run,
because the counter kept its value 2 across the recovery window. -/
theorem fatigue_fires_on_first_window_of_second_run :
    (runClassifier initFatigue
      [100, 100, 100, 100, 100, 80, 80, 100]).fatigue_detected = false ∧
    (runClassifier initFatigue
      [100, 100, 100, 100, 100, 80, 80, 100, 80]).fatigue_detected = true := by
  constructor <;>
    norm_num [runClassifier, List.foldl, classifierStep, initFatigue,
      BASELINE_WINDOWS, FATIGUE_THRESHOLD, CONSECUTIVE_WINDOWS]

/-- C1 divergence: when the buffer holds fewer than BUFFER_SIZE valid
samples, CircularBufferReadWindow leaves the stale window in place, yet
the cycle is not skipped: for every kernel behaviour, the classifier
still transitions, incrementing window_counter. -/
theorem underrun_cycle_not_skipped (K : Kernels) (s : SysState)
    (h : s.circ.sample_count < BUFFER_SIZE) :
    (emgCycle K s).emg_window = s.emg_window ∧
    (emgCycle K s).fatigue.window_counter = s.fatigue.window_counter + 1 := by
  have hr : CircularBufferReadWindow BUFFER_SIZE EMG_BUFFER_LEN s.circ = none := by
    simp [CircularBufferReadWindow, h]
  constructor <;> simp [emgCycle, hr, classifierStep_window_counter]

/-- Witness for C1 at the boot state with zero samples written. -/
theorem underrun_cycle_not_skipped_witness :
    initSys.circ.sample_count < BUFFER_SIZE ∧
    ((emgCycle constKernels initSys).emg_window = initSys.emg_window ∧
     (emgCycle constKernels initSys).fatigue.window_counter =
       initSys.fatigue.window_counter + 1) :=
  ⟨by decide, underrun_cycle_not_skipped constKernels initSys (by decide)⟩

/-- C9: the clear command, byte 66 (character B), only emits the two
presentation strings: the returned state is the input state, every field
included, and the task is not notified. -/
theorem clear_command_pure_presentation (s : SysState) :
    read_data 66 s = (s, false, ["*HC*", "*TLimpieza completada*\n"]) := rfl

/-- Invariant of the circular buffer after a sequence of writes from the
boot state: the cursor equals the number of writes modulo the capacity,
the saturating counter equals the minimum of the number of writes and the
capacity, and every slot holding one of the last cap writes holds exactly
that write. -/
lemma writeMany_invariant (cap : ℕ) (_hc : 0 < cap) (ws : List ℚ) :
    (writeMany cap initBuf ws).write_index = ws.length % cap ∧
    (writeMany cap initBuf ws).sample_count = min ws.length cap ∧
    ∀ j, j < ws.length → ws.length ≤ j + cap →
      (writeMany cap initBuf ws).emg_buffer (j % cap) = ws.getD j 0 := by
  induction ws using List.reverseRecOn with
  | nil =>
      refine ⟨by simp [writeMany, initBuf], by simp [writeMany, initBuf], ?_⟩
      intro j hj _
      simp at hj
  | append_singleton l a ih =>
      obtain ⟨hw, hcnt, hbuf⟩ := ih
      have hstep : writeMany cap initBuf (l ++ [a]) =
          CircularBufferWrite cap (writeMany cap initBuf l) a := by
        simp [writeMany, List.foldl_append]
      refine ⟨?_, ?_, ?_⟩
      · rw [hstep]
        simp only [CircularBufferWrite, hw, List.length_append, List.length_singleton]
        exact Nat.mod_add_mod l.length cap 1
      · rw [hstep]
        simp only [CircularBufferWrite, hcnt, List.length_append, List.length_singleton]
        split_ifs with h <;> omega
      · intro j hj hjc
        simp only [List.length_append, List.length_singleton] at hj hjc
        rw [hstep]
        simp only [CircularBufferWrite, hw]
        by_cases hje : j = l.length
        · subst hje
          rw [Function.update_same]
          simp [List.getD_eq_getElem?_getD, List.getElem?_append_right]
        · have hjl : j < l.length := by omega
          have hne : j % cap ≠ l.length % cap := by
            intro heq
            have hdvd : cap ∣ l.length - j := (Nat.modEq_iff_dvd' hjl.le).mp heq
            have hle : cap ≤ l.length - j := Nat.le_of_dvd (by omega) hdvd
            omega
          rw [Function.update_noteq hne]
          rw [hbuf j hjl (by omega)]
          exact (List.getD_append l [a] 0 j hjl).symm

/-- C7: after at least N writes since boot, with 0 < cap and N ≤ cap, the
window read from the circular buffer is exactly the chronological list of
the last N written samples, wrap-around of the write cursor included. The
source instantiates N = BUFFER_SIZE and cap = EMG_BUFFER_LEN. -/
theorem circular_buffer_reads_last_window (N cap : ℕ) (hc : 0 < cap) (hN : N ≤ cap)
    (ws : List ℚ) (hlen : N ≤ ws.length) :
    CircularBufferReadWindow N cap (writeMany cap initBuf ws) =
      some (ws.drop (ws.length - N)) := by
  obtain ⟨hw, hcnt, hbuf⟩ := writeMany_invariant cap hc ws
  simp only [CircularBufferReadWindow, hw, hcnt]
  rw [if_neg (by omega)]
  congr 1
  apply List.ext_getElem
  · simp only [List.length_ofFn, List.length_drop]
    omega
  · intro i h1 h2
    rw [List.getElem_ofFn]
    have hX : ws.length % cap + cap - N = ws.length % cap + (cap - N) := by omega
    have hidx : ((ws.length % cap + cap - N) % cap + i) % cap =
        (ws.length - N + i) % cap := by
      rw [hX, Nat.mod_add_mod, add_assoc, Nat.mod_add_mod]
      have harr : ws.length + (cap - N + i) = ws.length - N + i + cap := by omega
      rw [harr, Nat.add_mod_right]
    simp only [List.length_ofFn] at h1
    have h3 : ws.length - N + i < ws.length := by omega
    rw [hidx, hbuf (ws.length - N + i) h3 (by omega), List.getD_eq_getElem _ _ h3]
    exact (List.getElem_drop ws).symm

/-- Witness for C7 on a concrete four-write run over a capacity-3 buffer,
exercising wrap-around of the cursor. -/
theorem circular_buffer_reads_last_window_witness :
    CircularBufferReadWindow 2 3 (writeMany 3 initBuf [1, 2, 3, 4]) =
      some (([1, 2, 3, 4] : List ℚ).drop (([1, 2, 3, 4] : List ℚ).length - 2)) :=
  circular_buffer_reads_last_window 2 3 (by decide) (by decide) [1, 2, 3, 4] (by decide)
